import Mathlib

/-!
Shallow embedding of the Minesweeper engine (src/states.js, the Cell module,
and src/minesweeper.js) together with theorems checking the specification's
claims against it.

Modelling conventions:
* JS numbers holding enum values become inductive types `CellState` and
  `GameState` (src/states.js).
* A `Cell` is a record of its `isBomb` flag and its `state`; the JS
  `_position` back-reference is passed explicitly as an argument where the
  source reads it.
* The engine's `_fieldSize` and `_bombNumber` fields are constant for the
  lifetime of an instance, so they are threaded as explicit parameters
  `n` and `bombN` of the engine's functions instead of record fields.
* The grid `this._gameField` becomes a total function `Nat × Nat → Cell`;
  the one unguarded indexing site (`this._gameField[x][y]` in `openCell`
  and `toggleCellBombMark`) is modelled by an explicit range check whose
  failure returns `none` (the JS TypeError).
* The optional observer callbacks become an event log: each
  `_notifyCellStateChanged` / `_notifyGameStateChanged` call appends an
  `Event` to `Game.events`.
* `Math.floor(Math.random() * n)` becomes `(rand k).1 % n` / `(rand k).2 % n`
  for an arbitrary stream `rand : Nat → Nat × Nat` of attempt positions,
  quantified universally in the theorems.
* The `_forEachCell` / `_forEachAdjacentCell` iteration helpers with their
  early-break protocol become `List.foldl` / `List.any` / `List.all` over
  the corresponding position lists in the source's loop order.
* The recursion of `_openCell` is embedded with an explicit fuel argument;
  the top-level entry point passes fuel `n * n + 1`, which the flood-fill
  theorems show is never exhausted (every recursive call consumes a fresh
  openable cell, of which there are at most `n * n`).
-/

set_option autoImplicit false

/-- States of a cell, from src/states.js. -/
inductive CellState where
  | INITIAL
  | OPENED
  | MARKED_AS_BOMB
  | DEFUSED
  | DETONATED
deriving DecidableEq

/-- States of the game, from src/states.js. -/
inductive GameState where
  | INITIATED
  | READY
  | RUNNING
  | WIN
  | LOSS
deriving DecidableEq

/-- A cell of the game field: the real bomb flag and the visible state
(the Cell module's `_isBomb` and `_state`). -/
structure Cell where
  isBomb : Bool
  state : CellState
deriving DecidableEq

namespace Cell

/-- Embeds `Cell.prototype._openOrDoOtherIfBomb`: from INITIAL or
MARKED_AS_BOMB the cell moves to `otherState` when it holds a bomb and to
OPENED otherwise; any other state is left unchanged.  The Bool is the JS
return value (whether the state changed). -/
def openOrDoOtherIfBomb (c : Cell) (otherState : CellState) : Cell × Bool :=
  if c.state = CellState.INITIAL ∨ c.state = CellState.MARKED_AS_BOMB then
    ({ c with state := if c.isBomb then otherState else CellState.OPENED }, true)
  else
    (c, false)

/-- Embeds `Cell.prototype.openOrDetonate`. -/
def openOrDetonate (c : Cell) : Cell × Bool :=
  c.openOrDoOtherIfBomb CellState.DETONATED

/-- Embeds `Cell.prototype.openOrDefuse`. -/
def openOrDefuse (c : Cell) : Cell × Bool :=
  c.openOrDoOtherIfBomb CellState.DEFUSED

/-- Embeds `Cell.prototype.toggleBombMark`: swaps INITIAL and
MARKED_AS_BOMB, leaving every other state unchanged; returns whether the
state changed. -/
def toggleBombMark (c : Cell) : Cell × Bool :=
  match c.state with
  | CellState.MARKED_AS_BOMB => ({ c with state := CellState.INITIAL }, true)
  | CellState.INITIAL => ({ c with state := CellState.MARKED_AS_BOMB }, true)
  | _ => (c, false)

/-- Embeds `Cell.prototype.clear`: unconditionally removes the bomb and
forces the state back to INITIAL; returns whether the state changed. -/
def clear (c : Cell) : Cell × Bool :=
  ({ isBomb := false, state := CellState.INITIAL }, c.state ≠ CellState.INITIAL)

end Cell

/-- A cell state that is terminal for the current round. -/
def terminalCellState (s : CellState) : Prop :=
  s = CellState.OPENED ∨ s = CellState.DEFUSED ∨ s = CellState.DETONATED

instance (s : CellState) : Decidable (terminalCellState s) := by
  unfold terminalCellState; infer_instance

/-- C7: for every Cell whose state is OPENED, DEFUSED, or DETONATED, each of
`openOrDetonate`, `openOrDefuse`, and `toggleBombMark` returns false and
leaves the cell's state and bomb flag unchanged.  (No Cell operation can
throw: all operations are total Lean functions.) -/
theorem cell_terminal_ops_noop (c : Cell) (h : terminalCellState c.state) :
    c.openOrDetonate = (c, false) ∧ c.openOrDefuse = (c, false) ∧
      c.toggleBombMark = (c, false) := by
  rcases h with h | h | h <;>
    simp [Cell.openOrDetonate, Cell.openOrDefuse, Cell.openOrDoOtherIfBomb,
      Cell.toggleBombMark, h]

/-- Witness for `cell_terminal_ops_noop` at a concrete DEFUSED cell. -/
theorem cell_terminal_ops_noop_witness :
    terminalCellState (Cell.mk true CellState.DEFUSED).state ∧
      (Cell.mk true CellState.DEFUSED).openOrDetonate
          = (Cell.mk true CellState.DEFUSED, false) ∧
      (Cell.mk true CellState.DEFUSED).openOrDefuse
          = (Cell.mk true CellState.DEFUSED, false) ∧
      (Cell.mk true CellState.DEFUSED).toggleBombMark
          = (Cell.mk true CellState.DEFUSED, false) :=
  ⟨by decide, cell_terminal_ops_noop (Cell.mk true CellState.DEFUSED) (by decide)⟩

/-- A notification issued to the optional observer callbacks
(`onCellStateChanged` with the data of `_getCellData`, and
`onGameStateChanged`). -/
inductive Event where
  | cellStateChanged (x y : Nat) (state : CellState) (numberBombs : Option Nat)
  | gameStateChanged (state : GameState)
deriving DecidableEq

/-- The mutable state of a Minesweeper instance: the game state `_state`,
the game field `_gameField` as a total function on coordinates, and the log
of notifications fired so far.  The constant `_fieldSize` and `_bombNumber`
are passed to the operations as explicit parameters. -/
structure Game where
  state : GameState
  grid : Nat × Nat → Cell
  events : List Event

/-- The cells visited by `_forEachCell`, in its loop order (outer index
first). -/
def rowMajor (n : Nat) : List (Nat × Nat) :=
  (List.range n).flatMap (fun i => (List.range n).map (fun j => (i, j)))

/-- The cells visited by `_forEachAdjacentCell` around `p` on an `n` by `n`
field, in its loop order: both coordinates clipped to `[0, n-1]`, skipping
`p` itself.  (For `n = 0` the JS loop bound `min(x+1, -1)` makes the loop
empty; natural subtraction needs the explicit branch.) -/
def adjacentPositions (n : Nat) (p : Nat × Nat) : List (Nat × Nat) :=
  if n = 0 then [] else
    (List.range' (p.1 - 1) (min (p.1 + 1) (n - 1) + 1 - (p.1 - 1))).flatMap
      (fun i => (List.range' (p.2 - 1) (min (p.2 + 1) (n - 1) + 1 - (p.2 - 1))).filterMap
        (fun j => if i = p.1 ∧ j = p.2 then none else some (i, j)))

/-- Replaces the cell at position `p`. -/
def setCell (g : Game) (p : Nat × Nat) (c : Cell) : Game :=
  { g with grid := fun q => if q = p then c else g.grid q }

/-- Embeds `Minesweeper.prototype._getNumberAdjacentBombs`. -/
def numberAdjacentBombs (n : Nat) (g : Game) (p : Nat × Nat) : Nat :=
  (adjacentPositions n p).countP (fun q => (g.grid q).isBomb)

/-- Embeds `Minesweeper.prototype._allAdjacentCellsAreBombs` (the early
break on the first bombless neighbour is `List.all`). -/
def allAdjacentCellsAreBombs (n : Nat) (g : Game) (p : Nat × Nat) : Bool :=
  (adjacentPositions n p).all (fun q => (g.grid q).isBomb)

/-- Embeds `Minesweeper.prototype._getCellData`: the cell's state, plus the
number of adjacent bombs when the cell is OPENED and `null` otherwise. -/
def getCellData (n : Nat) (g : Game) (p : Nat × Nat) : CellState × Option Nat :=
  ((g.grid p).state,
    if (g.grid p).state = CellState.OPENED then some (numberAdjacentBombs n g p) else none)

/-- Embeds `Minesweeper.prototype._notifyCellStateChanged`: appends the
cell-changed notification for the cell at `p`. -/
def notifyCellStateChanged (n : Nat) (g : Game) (p : Nat × Nat) : Game :=
  { g with events := g.events ++
      [Event.cellStateChanged p.1 p.2 (getCellData n g p).1 (getCellData n g p).2] }

/-- Embeds `Minesweeper.prototype._setGameState`: sets the state and fires
the game-state-changed notification. -/
def setGameState (g : Game) (s : GameState) : Game :=
  { g with state := s, events := g.events ++ [Event.gameStateChanged s] }

/-- Embeds `Minesweeper.prototype._startGameIfNeeded`: READY moves to
RUNNING (with notification); returns whether the state is RUNNING
afterwards. -/
def startGameIfNeeded (g : Game) : Game × Bool :=
  let g1 := if g.state = GameState.READY then setGameState g GameState.RUNNING else g
  (g1, decide (g1.state = GameState.RUNNING))

/-- The per-cell callback of the `_forEachCell` loop in `_setLoss`:
open-or-detonate the cell, notifying on an actual change. -/
def detonateCellStep (n : Nat) (acc : Game) (p : Nat × Nat) : Game :=
  let r := (acc.grid p).openOrDetonate
  if r.2 then notifyCellStateChanged n (setCell acc p r.1) p else acc

/-- Embeds `Minesweeper.prototype._setLoss`: opens or detonates every cell
(notifying each actual change), then sets the game state to LOSS. -/
def setLoss (n : Nat) (g : Game) : Game :=
  setGameState ((rowMajor n).foldl (detonateCellStep n) g) GameState.LOSS

/-- The per-cell condition of the win scan in `_setWinIfNeeded`: an INITIAL
cell, or a MARKED_AS_BOMB cell without a real bomb, means the game is not
yet won. -/
def blocksWin (c : Cell) : Bool :=
  c.state == CellState.INITIAL || (c.state == CellState.MARKED_AS_BOMB && !c.isBomb)

/-- The per-cell callback of the defusing `_forEachCell` loop in
`_setWinIfNeeded`: open-or-defuse the cell, notifying on an actual
change. -/

def defuseCellStep (n : Nat) (acc : Game) (p : Nat × Nat) : Game :=
  let r := (acc.grid p).openOrDefuse
  if r.2 then notifyCellStateChanged n (setCell acc p r.1) p else acc

/-- Embeds `Minesweeper.prototype._setWinIfNeeded`: only in RUNNING state,
scan all cells (early break is `List.any`); when no cell blocks the win,
open-or-defuse every cell (notifying each change) and set the state to
WIN. -/
def setWinIfNeeded (n : Nat) (g : Game) : Game :=
  if g.state ≠ GameState.RUNNING then g
  else if (rowMajor n).any (fun p => blocksWin (g.grid p)) then g
  else setGameState ((rowMajor n).foldl (defuseCellStep n) g) GameState.WIN

/-- Embeds the recursive `Minesweeper.prototype._openCell` with an explicit
fuel bound on the recursion depth (the entry point passes `n * n + 1`,
which is never exhausted: along any chain of recursive calls every caller
has just opened a distinct cell, and at most `n * n` cells are openable).
Open-or-detonate the cell; on an actual change notify, then either resolve
the loss (DETONATED) or, when the opened cell has no adjacent bombs,
recursively open every adjacent cell. -/
def openCellRec (n : Nat) : Nat → Game → Nat × Nat → Game
  | 0, g, _ => g
  | fuel + 1, g, p =>
    let r := (g.grid p).openOrDetonate
    if r.2 then
      let g1 := notifyCellStateChanged n (setCell g p r.1) p
      if r.1.state = CellState.DETONATED then setLoss n g1
      else if numberAdjacentBombs n g1 p = 0 then
        (adjacentPositions n p).foldl (openCellRec n fuel) g1
      else g1
    else g

/-- Embeds `Minesweeper.prototype.openCell`: the `_startGameIfNeeded` gate,
then the unguarded grid indexing `this._gameField[x][y]` (out of range is
the thrown TypeError, modelled as `none`), then the recursive open and the
win re-evaluation. -/
def openCell (n : Nat) (g : Game) (x y : Nat) : Option Game :=
  let s := startGameIfNeeded g
  if s.2 then
    if x < n ∧ y < n then
      some (setWinIfNeeded n (openCellRec n (n * n + 1) s.1 (x, y)))
    else none
  else some s.1

/-- Embeds `Minesweeper.prototype.toggleCellBombMark`: the same gate and
unguarded indexing, then the cell's mark toggle; on an actual change,
notify and re-evaluate the win condition. -/
def toggleCellBombMark (n : Nat) (g : Game) (x y : Nat) : Option Game :=
  let s := startGameIfNeeded g
  if s.2 then
    if x < n ∧ y < n then
      let r := ((s.1).grid (x, y)).toggleBombMark
      if r.2 then
        some (setWinIfNeeded n (notifyCellStateChanged n (setCell s.1 (x, y) r.1) (x, y)))
      else some s.1
    else none
  else some s.1

/-- The clearing pass at the start of `_setBombsOnGameField`: clear every
cell, notifying those whose state actually changed.  (The JS branch that
allocates fresh cells on first use is covered by `mkMinesweeper` starting
from fresh INITIAL cells, on which `clear` is a notification-free no-op
with the same resulting cell.)  `clearCellStep` is the per-cell
callback. -/
def clearCellStep (n : Nat) (acc : Game) (p : Nat × Nat) : Game :=
  let r := (acc.grid p).clear
  let acc1 := setCell acc p r.1
  if r.2 then notifyCellStateChanged n acc1 p else acc1

def clearCells (n : Nat) (g : Game) : Game :=
  (rowMajor n).foldl (clearCellStep n) g

/-- The `bombCanBeSetHere` decision of one placement-loop iteration,
exactly as the source computes it: the cell must not already hold a bomb,
it must not itself be fully surrounded by bombs, and with a tentative
(fake) bomb set into it, no adjacent cell already holding a bomb may
become fully surrounded by bombs (early break is `List.any`). -/
def bombCanBeSetHere (n : Nat) (g : Game) (p : Nat × Nat) : Bool :=
  if (g.grid p).isBomb then false
  else if allAdjacentCellsAreBombs n g p then false
  else
    let gF := setCell g p { g.grid p with isBomb := true }
    !((adjacentPositions n p).any
        (fun q => (gF.grid q).isBomb && allAdjacentCellsAreBombs n gF q))

/-- The bomb-placement loop of `_setBombsOnGameField`.  Each iteration
draws an attempt position from the stream `rand` (the two
`Math.floor(Math.random() * fieldSize)` draws), decides `bombCanBeSetHere`,
and either places the bomb or spends one unit of the failure budget.
Returns the game, the number of bombs placed, the remaining budget, and
the number of iterations performed (`incIter` bumps the
iteration count of a result).

The loop is embedded with an explicit structural fuel argument; the entry
point passes `bombNumber + fieldSize * fieldSize`, which is never
exhausted because every iteration either raises `placed` (bounded by
`bombNumber`) or lowers `budget` (theorem on the iteration bound below). -/
def incIter (r : Game × Nat × Nat × Nat) : Game × Nat × Nat × Nat :=
  (r.1, r.2.1, r.2.2.1, r.2.2.2 + 1)

def placeBombsLoop (n bombN : Nat) (rand : Nat → Nat × Nat) :
    Nat → Nat → Game → Nat → Nat → Game × Nat × Nat × Nat
  | 0, _, g, placed, budget => (g, placed, budget, 0)
  | fuel + 1, k, g, placed, budget =>
    if placed < bombN ∧ budget ≠ 0 then
      if bombCanBeSetHere n g ((rand k).1 % n, (rand k).2 % n) then
        incIter (placeBombsLoop n bombN rand fuel (k + 1)
          (setCell g ((rand k).1 % n, (rand k).2 % n)
            { g.grid ((rand k).1 % n, (rand k).2 % n) with isBomb := true })
          (placed + 1) budget)
      else
        incIter (placeBombsLoop n bombN rand fuel (k + 1) g placed (budget - 1))
    else (g, placed, budget, 0)

/-- Embeds `Minesweeper.prototype._setBombsOnGameField`: clear all cells,
run the placement loop with failure budget `fieldSize * fieldSize`, then
set the game state to READY. -/
def setBombsOnGameField (n bombN : Nat) (rand : Nat → Nat × Nat) (g : Game) : Game :=
  let g1 := clearCells n g
  let r := placeBombsLoop n bombN rand (bombN + n * n) 0 g1 0 (n * n)
  setGameState r.1 GameState.READY

/-- Embeds `Minesweeper.prototype.restartGame`. -/
def restartGame (n bombN : Nat) (rand : Nat → Nat × Nat) (g : Game) : Game :=
  setBombsOnGameField n bombN rand g

/-- The state of a fresh `Minesweeper` instance before
`_setBombsOnGameField` runs: INITIATED, bombless INITIAL cells, nothing
notified. -/
def freshGame : Game :=
  { state := GameState.INITIATED,
    grid := fun _ => { isBomb := false, state := CellState.INITIAL },
    events := [] }

/-- Embeds the `Minesweeper` constructor: state INITIATED, fresh bombless
INITIAL cells, then `_setBombsOnGameField`. -/
def mkMinesweeper (n bombN : Nat) (rand : Nat → Nat × Nat) : Game :=
  setBombsOnGameField n bombN rand freshGame

/-- Number of cells of the field holding a bomb. -/
def countBombs (n : Nat) (g : Game) : Nat :=
  (rowMajor n).countP (fun p => (g.grid p).isBomb)

/-- A cell that an open or a mark can still change. -/
def openableCell (c : Cell) : Bool :=
  c.state == CellState.INITIAL || c.state == CellState.MARKED_AS_BOMB

/-- Number of still-openable cells of the field (the measure that bounds
the flood-fill recursion). -/
def openableCount (n : Nat) (g : Game) : Nat :=
  (rowMajor n).countP (fun p => openableCell (g.grid p))

/-- The set of cells the flood-fill reveal starting at `p0` is specified
to reach: `p0` itself, and, from any reached cell with zero adjacent
bombs, all its neighbours.  The cells of the relation with zero adjacent
bombs form the connected zero-adjacency region of `p0`; the others are the
bordering cells. -/
inductive Reach (n : Nat) (g : Game) (p0 : Nat × Nat) : Nat × Nat → Prop where
  | base : Reach n g p0 p0
  | step (q r : Nat × Nat) : Reach n g p0 q → numberAdjacentBombs n g q = 0 →
      r ∈ adjacentPositions n q → Reach n g p0 r

/-! Basic facts about the iteration orders. -/

theorem mem_rowMajor {n : Nat} {p : Nat × Nat} :
    p ∈ rowMajor n ↔ p.1 < n ∧ p.2 < n := by
  rcases p with ⟨x, y⟩
  simp [rowMajor, List.mem_flatMap]

theorem length_rowMajor (n : Nat) : (rowMajor n).length = n * n := by
  simp only [rowMajor, List.length_flatMap, Function.comp_def, List.length_map,
    List.length_range, List.map_const', List.sum_replicate, smul_eq_mul]

theorem mem_adjacentPositions {n : Nat} {p q : Nat × Nat} :
    q ∈ adjacentPositions n p ↔
      q ≠ p ∧ q.1 < n ∧ q.2 < n ∧ p.1 ≤ q.1 + 1 ∧ q.1 ≤ p.1 + 1 ∧
        p.2 ≤ q.2 + 1 ∧ q.2 ≤ p.2 + 1 := by
  rcases p with ⟨x, y⟩; rcases q with ⟨a, b⟩
  unfold adjacentPositions
  by_cases hn : n = 0
  · subst hn; simp
  · simp only [if_neg hn, List.mem_flatMap, List.mem_filterMap, List.mem_range'_1]
    constructor
    · rintro ⟨i, hi, j, hj, hsome⟩
      by_cases hij : i = x ∧ j = y
      · rw [if_pos hij] at hsome; exact absurd hsome (by simp)
      · rw [if_neg hij] at hsome
        have hab : i = a ∧ j = b := by
          have := Option.some.inj hsome
          exact ⟨congrArg Prod.fst this, congrArg Prod.snd this⟩
        obtain ⟨rfl, rfl⟩ := hab
        refine ⟨?_, by omega, by omega, by omega, by omega, by omega, by omega⟩
        intro hcontra
        exact hij ⟨congrArg Prod.fst hcontra, congrArg Prod.snd hcontra⟩
    · rintro ⟨hne, h1, h2, h3, h4, h5, h6⟩
      have hne2 : ¬(a = x ∧ b = y) := by
        intro hcontra
        exact hne (by simp [hcontra.1, hcontra.2])
      refine ⟨a, by omega, b, by omega, ?_⟩
      rw [if_neg hne2]

theorem adjacentPositions_symm {n : Nat} {p q : Nat × Nat}
    (hq : q ∈ adjacentPositions n p) (h1 : p.1 < n) (h2 : p.2 < n) :
    p ∈ adjacentPositions n q := by
  rw [mem_adjacentPositions] at hq ⊢
  obtain ⟨hne, _, _, _, _, _, _⟩ := hq
  exact ⟨fun h => hne h.symm, h1, h2, by omega, by omega, by omega, by omega⟩

theorem mem_adjacentPositions_lt {n : Nat} {p q : Nat × Nat}
    (hq : q ∈ adjacentPositions n p) : q.1 < n ∧ q.2 < n := by
  rw [mem_adjacentPositions] at hq
  exact ⟨hq.2.1, hq.2.2.1⟩

/-! Projection lemmas for the elementary state updates. -/

theorem setCell_state (g : Game) (p : Nat × Nat) (c : Cell) :
    (setCell g p c).state = g.state := rfl

theorem setCell_events (g : Game) (p : Nat × Nat) (c : Cell) :
    (setCell g p c).events = g.events := rfl

theorem setCell_grid (g : Game) (p q : Nat × Nat) (c : Cell) :
    (setCell g p c).grid q = if q = p then c else g.grid q := rfl

theorem setCell_grid_same (g : Game) (p : Nat × Nat) (c : Cell) :
    (setCell g p c).grid p = c := by
  simp [setCell]

theorem setCell_grid_other (g : Game) {p q : Nat × Nat} (c : Cell) (h : q ≠ p) :
    (setCell g p c).grid q = g.grid q := by
  simp [setCell, h]

theorem notify_state (n : Nat) (g : Game) (p : Nat × Nat) :
    (notifyCellStateChanged n g p).state = g.state := rfl

theorem notify_grid (n : Nat) (g : Game) (p : Nat × Nat) :
    (notifyCellStateChanged n g p).grid = g.grid := rfl

theorem setGameState_state (g : Game) (s : GameState) :
    (setGameState g s).state = s := rfl

theorem setGameState_grid (g : Game) (s : GameState) :
    (setGameState g s).grid = g.grid := rfl

/-! The `_startGameIfNeeded` gate. -/

theorem startGameIfNeeded_gated {g : Game}
    (h1 : g.state ≠ GameState.READY) (h2 : g.state ≠ GameState.RUNNING) :
    startGameIfNeeded g = (g, false) := by
  simp [startGameIfNeeded, h1, h2]

theorem startGameIfNeeded_running {g : Game} (h : g.state = GameState.RUNNING) :
    startGameIfNeeded g = (g, true) := by
  have : g.state ≠ GameState.READY := by rw [h]; simp
  simp [startGameIfNeeded, this, h]

theorem startGameIfNeeded_ready {g : Game} (h : g.state = GameState.READY) :
    startGameIfNeeded g = (setGameState g GameState.RUNNING, true) := by
  simp [startGameIfNeeded, h, setGameState_state]

/-- Shared helper for C6 and C10: in INITIATED, WIN, or LOSS state both
guarded commands return the game unchanged, with no notification. -/
theorem gated_commands_noop {n : Nat} {g : Game} (x y : Nat)
    (h : g.state = GameState.INITIATED ∨ g.state = GameState.WIN ∨
      g.state = GameState.LOSS) :
    openCell n g x y = some g ∧ toggleCellBombMark n g x y = some g := by
  have h1 : g.state ≠ GameState.READY := by rcases h with h | h | h <;> simp [h]
  have h2 : g.state ≠ GameState.RUNNING := by rcases h with h | h | h <;> simp [h]
  have hs := startGameIfNeeded_gated h1 h2
  constructor
  · simp [openCell, hs]
  · simp [toggleCellBombMark, hs]

set_option maxRecDepth 10000

/-! Facts about the win re-evaluation. -/

theorem setWinIfNeeded_not_running {n : Nat} {g : Game}
    (h : g.state ≠ GameState.RUNNING) : setWinIfNeeded n g = g := by
  simp [setWinIfNeeded, h]

theorem setWinIfNeeded_of_blocked {n : Nat} {g : Game} (q : Nat × Nat)
    (hq1 : q.1 < n) (hq2 : q.2 < n) (hb : blocksWin (g.grid q) = true) :
    setWinIfNeeded n g = g := by
  unfold setWinIfNeeded
  by_cases hr : g.state ≠ GameState.RUNNING
  · simp [hr]
  · have hany : (rowMajor n).any (fun p => blocksWin (g.grid p)) = true :=
      List.any_eq_true.mpr ⟨q, mem_rowMajor.mpr ⟨hq1, hq2⟩, hb⟩
    simp [hr, hany]

/-- A game used in concrete refutations: every cell opened, state WIN. -/
def allOpenedWinGame : Game :=
  { state := GameState.WIN,
    grid := fun _ => { isBomb := false, state := CellState.OPENED },
    events := [] }

/-- An attempt-position stream that always proposes the origin. -/
def constRand : Nat → Nat × Nat := fun _ => (0, 0)

/-- C6 (amended: `restartGame` excluded): in INITIATED, WIN, or LOSS state,
`openCell` and `toggleCellBombMark` with any arguments fire zero
notifications and change nothing — the returned game is the input game,
with its state, every cell, and the event log untouched. -/
theorem gated_commands_are_silent (n : Nat) (g : Game) (x y : Nat)
    (h : g.state = GameState.INITIATED ∨ g.state = GameState.WIN ∨
      g.state = GameState.LOSS) :
    openCell n g x y = some g ∧ toggleCellBombMark n g x y = some g :=
  gated_commands_noop x y h

/-- Witness for `gated_commands_are_silent` at a concrete WIN game. -/
theorem gated_commands_are_silent_witness :
    (allOpenedWinGame.state = GameState.INITIATED ∨
        allOpenedWinGame.state = GameState.WIN ∨
        allOpenedWinGame.state = GameState.LOSS) ∧
      openCell 1 allOpenedWinGame 0 0 = some allOpenedWinGame ∧
      toggleCellBombMark 1 allOpenedWinGame 0 0 = some allOpenedWinGame :=
  ⟨Or.inr (Or.inl rfl),
    gated_commands_are_silent 1 allOpenedWinGame 0 0 (Or.inr (Or.inl rfl))⟩

/-- Counterexample to C6 as stated: `restartGame` has no game-state gate.
Issued on a WIN-state game it changes the game state (to READY) and fires
notifications, so not every command is a silent no-op in WIN state. -/
theorem restartGame_not_gated :
    allOpenedWinGame.state = GameState.WIN ∧
      (restartGame 1 0 constRand allOpenedWinGame).state ≠ allOpenedWinGame.state ∧
      (restartGame 1 0 constRand allOpenedWinGame).events ≠ allOpenedWinGame.events := by
  refine ⟨rfl, ?_, ?_⟩ <;> decide

/-- C10: both `openCell` and `toggleCellBombMark` evaluate the
`_startGameIfNeeded` gate before touching the grid: with out-of-range
coordinates, in INITIATED, WIN, or LOSS state they return the game
unchanged without reaching the indexing (no error), while in READY or
RUNNING state they reach the unguarded grid indexing and fail (`none`,
the JS TypeError). -/
theorem gate_evaluated_before_indexing (n : Nat) (g : Game) (x y : Nat)
    (hout : ¬(x < n ∧ y < n)) :
    ((g.state = GameState.INITIATED ∨ g.state = GameState.WIN ∨
        g.state = GameState.LOSS) →
      openCell n g x y = some g ∧ toggleCellBombMark n g x y = some g) ∧
    ((g.state = GameState.READY ∨ g.state = GameState.RUNNING) →
      openCell n g x y = none ∧ toggleCellBombMark n g x y = none) := by
  constructor
  · exact fun h => gated_commands_noop x y h
  · rintro (h | h)
    · have hs := startGameIfNeeded_ready h
      constructor
      · simp [openCell, hs, hout]
      · simp [toggleCellBombMark, hs, hout]
    · have hs := startGameIfNeeded_running h
      constructor
      · simp [openCell, hs, hout]
      · simp [toggleCellBombMark, hs, hout]

/-- Witness for `gate_evaluated_before_indexing`: out-of-range coordinates
on a concrete WIN game are silently ignored. -/
theorem gate_evaluated_before_indexing_witness :
    ¬((5 : Nat) < 1 ∧ (0 : Nat) < 1) ∧
      ((allOpenedWinGame.state = GameState.INITIATED ∨
          allOpenedWinGame.state = GameState.WIN ∨
          allOpenedWinGame.state = GameState.LOSS) →
        openCell 1 allOpenedWinGame 5 0 = some allOpenedWinGame ∧
          toggleCellBombMark 1 allOpenedWinGame 5 0 = some allOpenedWinGame) ∧
      ((allOpenedWinGame.state = GameState.READY ∨
          allOpenedWinGame.state = GameState.RUNNING) →
        openCell 1 allOpenedWinGame 5 0 = none ∧
          toggleCellBombMark 1 allOpenedWinGame 5 0 = none) :=
  ⟨by decide,
    (gate_evaluated_before_indexing 1 allOpenedWinGame 5 0 (by decide)).1,
    (gate_evaluated_before_indexing 1 allOpenedWinGame 5 0 (by decide)).2⟩

/-! The mark toggle. -/

theorem toggleBombMark_initial {c : Cell} (h : c.state = CellState.INITIAL) :
    c.toggleBombMark = ({ c with state := CellState.MARKED_AS_BOMB }, true) := by
  simp [Cell.toggleBombMark, h]

theorem toggleBombMark_marked {c : Cell} (h : c.state = CellState.MARKED_AS_BOMB) :
    c.toggleBombMark = ({ c with state := CellState.INITIAL }, true) := by
  simp [Cell.toggleBombMark, h]

theorem getCellData_not_opened {n : Nat} {g : Game} {p : Nat × Nat}
    (h : (g.grid p).state ≠ CellState.OPENED) :
    getCellData n g p = ((g.grid p).state, none) := by
  simp [getCellData, h]

/-- A changing `toggleCellBombMark` call whose win re-evaluation finds a
blocking cell: the result is exactly the updated-and-notified game. -/
theorem toggleCellBombMark_changes {n : Nat} {g : Game} {x y : Nat} {c : Cell}
    (hrun : g.state = GameState.RUNNING) (hx : x < n) (hy : y < n)
    (ht : (g.grid (x, y)).toggleBombMark = (c, true))
    (hblock : ∃ q : Nat × Nat, q.1 < n ∧ q.2 < n ∧
      blocksWin ((setCell g (x, y) c).grid q) = true) :
    toggleCellBombMark n g x y
      = some (notifyCellStateChanged n (setCell g (x, y) c) (x, y)) := by
  obtain ⟨q, hq1, hq2, hqb⟩ := hblock
  have hgate := startGameIfNeeded_running hrun
  have hwin : setWinIfNeeded n (notifyCellStateChanged n (setCell g (x, y) c) (x, y))
      = notifyCellStateChanged n (setCell g (x, y) c) (x, y) := by
    refine setWinIfNeeded_of_blocked q hq1 hq2 ?_
    rw [notify_grid]; exact hqb
  simp only [toggleCellBombMark, hgate]
  simp [hx, hy, ht, hwin]

/-- C9 (amended): on a RUNNING game, toggling an in-range INITIAL cell
twice returns it to INITIAL, changes no other cell and not the game state,
and fires exactly two cell-state-change notifications for that cell, first
MARKED_AS_BOMB then INITIAL — provided the first mark does not complete
the win condition (the cell has no bomb, or some other cell still blocks
the win). -/
theorem toggle_twice_restores_initial (n : Nat) (g : Game) (x y : Nat)
    (hrun : g.state = GameState.RUNNING) (hx : x < n) (hy : y < n)
    (hinit : (g.grid (x, y)).state = CellState.INITIAL)
    (hw : (g.grid (x, y)).isBomb = false ∨
      ∃ q : Nat × Nat, q.1 < n ∧ q.2 < n ∧ q ≠ (x, y) ∧ blocksWin (g.grid q) = true) :
    ∃ g1 g2, toggleCellBombMark n g x y = some g1 ∧
      toggleCellBombMark n g1 x y = some g2 ∧
      (∀ q, g2.grid q = g.grid q) ∧ g2.state = GameState.RUNNING ∧
      g2.events = g.events ++
        [Event.cellStateChanged x y CellState.MARKED_AS_BOMB none,
         Event.cellStateChanged x y CellState.INITIAL none] := by
  have ht1 := toggleBombMark_initial hinit
  have hstep1 : toggleCellBombMark n g x y
      = some (notifyCellStateChanged n
          (setCell g (x, y) { g.grid (x, y) with state := CellState.MARKED_AS_BOMB })
          (x, y)) := by
    refine toggleCellBombMark_changes hrun hx hy ht1 ?_
    rcases hw with hnb | ⟨q, hq1, hq2, hqne, hqb⟩
    · refine ⟨(x, y), hx, hy, ?_⟩
      rw [setCell_grid_same]
      simp [blocksWin, hnb]
    · refine ⟨q, hq1, hq2, ?_⟩
      rw [setCell_grid_other _ _ hqne]
      exact hqb
  set g1 : Game := notifyCellStateChanged n
      (setCell g (x, y) { g.grid (x, y) with state := CellState.MARKED_AS_BOMB })
      (x, y) with hg1
  have hg1run : g1.state = GameState.RUNNING := by
    rw [hg1, notify_state, setCell_state, hrun]
  have hg1at : g1.grid (x, y)
      = { g.grid (x, y) with state := CellState.MARKED_AS_BOMB } := by
    rw [hg1, notify_grid, setCell_grid_same]
  have ht2 : (g1.grid (x, y)).toggleBombMark
      = ({ g.grid (x, y) with state := CellState.INITIAL }, true) := by
    rw [hg1at]
    exact toggleBombMark_marked rfl
  have hcellEta : ({ g.grid (x, y) with state := CellState.INITIAL } : Cell)
      = g.grid (x, y) := by
    cases hc : g.grid (x, y) with
    | mk b s => rw [hc] at hinit; cases hinit; rfl
  have hstep2 : toggleCellBombMark n g1 x y
      = some (notifyCellStateChanged n
          (setCell g1 (x, y) { g.grid (x, y) with state := CellState.INITIAL })
          (x, y)) := by
    refine toggleCellBombMark_changes hg1run hx hy ht2 ?_
    refine ⟨(x, y), hx, hy, ?_⟩
    rw [setCell_grid_same]
    simp [blocksWin]
  refine ⟨g1, _, hstep1, hstep2, ?_, ?_, ?_⟩
  · intro q
    rw [notify_grid]
    by_cases hq : q = (x, y)
    · rw [hq, setCell_grid_same, hcellEta]
    · rw [setCell_grid_other _ _ hq, hg1, notify_grid, setCell_grid_other _ _ hq]
  · rw [notify_state, setCell_state, hg1run]
  · have hd1 : getCellData n
        (setCell g (x, y) { g.grid (x, y) with state := CellState.MARKED_AS_BOMB })
        (x, y) = (CellState.MARKED_AS_BOMB, none) := by
      rw [getCellData_not_opened (by rw [setCell_grid_same]; simp), setCell_grid_same]
    have hd2 : getCellData n
        (setCell g1 (x, y) { g.grid (x, y) with state := CellState.INITIAL })
        (x, y) = (CellState.INITIAL, none) := by
      rw [getCellData_not_opened (by rw [setCell_grid_same]; simp), setCell_grid_same]
    show (notifyCellStateChanged n
        (setCell g1 (x, y) { g.grid (x, y) with state := CellState.INITIAL })
        (x, y)).events = _
    rw [notifyCellStateChanged, hd2]
    show (setCell g1 (x, y) _).events ++ _ = _
    rw [setCell_events, hg1, notifyCellStateChanged, hd1]
    show (setCell g (x, y) _).events ++ _ ++ _ = _
    rw [setCell_events, List.append_assoc]
    rfl

/-- A concrete RUNNING 2x2 game: a bomb at the origin still INITIAL, every
other cell already OPENED — one correct mark away from the win. -/
def markWinGame : Game :=
  { state := GameState.RUNNING,
    grid := fun q =>
      if q = (0, 0) then { isBomb := true, state := CellState.INITIAL }
      else { isBomb := false, state := CellState.OPENED },
    events := [] }

/-- Counterexample to C9 as stated: when the first toggle completes the win
condition, the marked cell is immediately DEFUSED and the game moves to
WIN, so the second toggle is gated off and the cell does not return to
INITIAL (and three notifications fire, not two). -/
theorem toggle_twice_can_defuse :
    markWinGame.state = GameState.RUNNING ∧
      (markWinGame.grid (0, 0)).state = CellState.INITIAL ∧
      ((toggleCellBombMark 2 markWinGame 0 0).bind
          (fun g1 => toggleCellBombMark 2 g1 0 0)).map
          (fun g2 => ((g2.grid (0, 0)).state, g2.state, g2.events.length))
        = some (CellState.DEFUSED, GameState.WIN, 3) := by
  refine ⟨rfl, rfl, ?_⟩
  decide

/-- A concrete RUNNING 2x2 game with no bombs and every cell INITIAL. -/
def allInitialGame2 : Game :=
  { state := GameState.RUNNING,
    grid := fun _ => { isBomb := false, state := CellState.INITIAL },
    events := [] }

/-- Witness for `toggle_twice_restores_initial` at the cell (0, 1) of a
concrete game. -/
theorem toggle_twice_restores_initial_witness :
    (allInitialGame2.state = GameState.RUNNING ∧ (0 : Nat) < 2 ∧ (1 : Nat) < 2 ∧
        (allInitialGame2.grid (0, 1)).state = CellState.INITIAL ∧
        ((allInitialGame2.grid (0, 1)).isBomb = false ∨
          ∃ q : Nat × Nat, q.1 < 2 ∧ q.2 < 2 ∧ q ≠ (0, 1) ∧
            blocksWin (allInitialGame2.grid q) = true)) ∧
      ∃ g1 g2, toggleCellBombMark 2 allInitialGame2 0 1 = some g1 ∧
        toggleCellBombMark 2 g1 0 1 = some g2 ∧
        (∀ q, g2.grid q = allInitialGame2.grid q) ∧
        g2.state = GameState.RUNNING ∧
        g2.events = allInitialGame2.events ++
          [Event.cellStateChanged 0 1 CellState.MARKED_AS_BOMB none,
           Event.cellStateChanged 0 1 CellState.INITIAL none] :=
  ⟨⟨rfl, by decide, by decide, rfl, Or.inl rfl⟩,
    toggle_twice_restores_initial 2 allInitialGame2 0 1 rfl (by decide) (by decide)
      rfl (Or.inl rfl)⟩

/-! The concrete 2x2 win scenario (C2). -/

/-- The 2x2 one-bomb win scenario with the bomb cell correctly marked:
construct the engine with the bomb at `b`, mark `b`, then open the three
remaining cells in `_forEachCell` order. -/
def winScenarioRun (b : Nat × Nat) : Option Game :=
  ((rowMajor 2).filter (fun p => p ≠ b)).foldl
    (fun acc p => acc.bind (fun g => openCell 2 g p.1 p.2))
    (toggleCellBombMark 2 (mkMinesweeper 2 1 (fun _ => b)) b.1 b.2)

/-- The same scenario with the bomb cell left untouched (still INITIAL). -/
def untouchedScenarioRun (b : Nat × Nat) : Option Game :=
  ((rowMajor 2).filter (fun p => p ≠ b)).foldl
    (fun acc p => acc.bind (fun g => openCell 2 g p.1 p.2))
    (some (mkMinesweeper 2 1 (fun _ => b)))

/-- C2 (amended: the bomb cell must be correctly marked): on a 2x2 grid
with 1 bomb, marking the bomb cell and opening the three non-bomb cells
ends the game in WIN with the bomb cell DEFUSED. -/
theorem win_scenario_2x2_marked (b : Nat × Nat) (hb1 : b.1 < 2) (hb2 : b.2 < 2) :
    (winScenarioRun b).map (fun g => (g.state, (g.grid b).state))
      = some (GameState.WIN, CellState.DEFUSED) := by
  rcases b with ⟨b1, b2⟩
  interval_cases b1 <;> interval_cases b2 <;> decide

/-- Witness for `win_scenario_2x2_marked` with the bomb at the origin. -/
theorem win_scenario_2x2_marked_witness :
    ((0, 0) : Nat × Nat).1 < 2 ∧ ((0, 0) : Nat × Nat).2 < 2 ∧
      (winScenarioRun (0, 0)).map (fun g => (g.state, (g.grid (0, 0)).state))
        = some (GameState.WIN, CellState.DEFUSED) :=
  ⟨by decide, by decide, win_scenario_2x2_marked (0, 0) (by decide) (by decide)⟩

/-- Counterexample to C2 as stated: leaving the bomb cell untouched
(INITIAL) does not yield a win — the win scan aborts on the INITIAL cell,
the game stays RUNNING and the bomb cell stays INITIAL, not DEFUSED. -/
theorem untouched_bomb_cell_blocks_win :
    (untouchedScenarioRun (0, 0)).map (fun g => (g.state, (g.grid (0, 0)).state))
        = some (GameState.RUNNING, CellState.INITIAL) ∧
      (untouchedScenarioRun (0, 0)).map (fun g => (g.state, (g.grid (0, 0)).state))
        ≠ some (GameState.WIN, CellState.DEFUSED) := by
  refine ⟨?_, ?_⟩ <;> decide

/-! Generic facts about per-cell `_forEachCell` folds. -/

theorem foldl_grid_preserve (f : Game → Nat × Nat → Game) (P : Cell → Prop)
    (hloc : ∀ acc p q, q ≠ p → (f acc p).grid q = acc.grid q)
    (hest : ∀ acc p, P ((f acc p).grid p)) :
    ∀ (l : List (Nat × Nat)) (g : Game) (q : Nat × Nat),
      P (g.grid q) → P ((l.foldl f g).grid q) := by
  intro l
  induction l with
  | nil => intro g q h; exact h
  | cons p t ih =>
    intro g q h
    by_cases hqp : q = p
    · exact ih (f g p) q (by rw [hqp]; exact hest g p)
    · exact ih (f g p) q (by rw [hloc g p q hqp]; exact h)

theorem foldl_grid_establish (f : Game → Nat × Nat → Game) (P : Cell → Prop)
    (hloc : ∀ acc p q, q ≠ p → (f acc p).grid q = acc.grid q)
    (hest : ∀ acc p, P ((f acc p).grid p)) :
    ∀ (l : List (Nat × Nat)) (g : Game) (q : Nat × Nat),
      q ∈ l → P ((l.foldl f g).grid q) := by
  intro l
  induction l with
  | nil => intro g q hq; cases hq
  | cons p t ih =>
    intro g q hq
    rcases List.mem_cons.mp hq with rfl | hq2
    · exact foldl_grid_preserve f P hloc hest t (f g q) q (hest g q)
    · exact ih (f g p) q hq2

theorem foldl_grid_rel (f : Game → Nat × Nat → Game) (R : Cell → Cell → Prop)
    (hrefl : ∀ c, R c c) (htrans : ∀ a b c, R a b → R b c → R a c)
    (hloc : ∀ acc p q, q ≠ p → (f acc p).grid q = acc.grid q)
    (hstep : ∀ acc p, R (acc.grid p) ((f acc p).grid p)) :
    ∀ (l : List (Nat × Nat)) (g : Game) (q : Nat × Nat),
      R (g.grid q) ((l.foldl f g).grid q) := by
  intro l
  induction l with
  | nil => intro g q; exact hrefl _
  | cons p t ih =>
    intro g q
    refine htrans _ _ _ ?_ (ih (f g p) q)
    by_cases hqp : q = p
    · rw [hqp]; exact hstep g p
    · rw [hloc g p q hqp]; exact hrefl _

theorem foldl_state_eq (f : Game → Nat × Nat → Game)
    (hst : ∀ acc p, (f acc p).state = acc.state) :
    ∀ (l : List (Nat × Nat)) (g : Game), (l.foldl f g).state = g.state := by
  intro l
  induction l with
  | nil => intro g; rfl
  | cons p t ih => intro g; rw [List.foldl_cons, ih (f g p), hst g p]

/-! The loss resolution. -/

theorem detonateCellStep_local (n : Nat) (acc : Game) (p q : Nat × Nat)
    (h : q ≠ p) : (detonateCellStep n acc p).grid q = acc.grid q := by
  unfold detonateCellStep
  by_cases hr : ((acc.grid p).openOrDetonate).2 = true
  · simp only [hr, if_true, notify_grid]
    exact setCell_grid_other _ _ h
  · simp only [Bool.not_eq_true] at hr
    simp [hr]

theorem detonateCellStep_noop {n : Nat} {acc : Game} {p : Nat × Nat}
    (h : ¬((acc.grid p).state = CellState.INITIAL ∨
      (acc.grid p).state = CellState.MARKED_AS_BOMB)) :
    detonateCellStep n acc p = acc := by
  unfold detonateCellStep
  simp [Cell.openOrDetonate, Cell.openOrDoOtherIfBomb, h]

theorem detonateCellStep_terminal (n : Nat) (acc : Game) (p : Nat × Nat) :
    terminalCellState ((detonateCellStep n acc p).grid p).state := by
  by_cases h : (acc.grid p).state = CellState.INITIAL ∨
      (acc.grid p).state = CellState.MARKED_AS_BOMB
  · have hr : (acc.grid p).openOrDetonate
        = ({ acc.grid p with
            state := if (acc.grid p).isBomb then CellState.DETONATED
              else CellState.OPENED }, true) := by
      simp [Cell.openOrDetonate, Cell.openOrDoOtherIfBomb, h]
    unfold detonateCellStep
    simp only [hr]
    simp only [if_true, notify_grid, setCell_grid_same]
    by_cases hb : (acc.grid p).isBomb = true
    · simp [hb, terminalCellState]
    · simp only [Bool.not_eq_true] at hb
      simp [hb, terminalCellState]
  · rw [detonateCellStep_noop h]
    cases hst : (acc.grid p).state
    · exact absurd (Or.inl hst) h
    · exact Or.inl rfl
    · exact absurd (Or.inr hst) h
    · exact Or.inr (Or.inl rfl)
    · exact Or.inr (Or.inr rfl)

theorem setLoss_state (n : Nat) (g : Game) : (setLoss n g).state = GameState.LOSS :=
  rfl

theorem setLoss_grid_terminal (n : Nat) (g : Game) (p : Nat × Nat)
    (h1 : p.1 < n) (h2 : p.2 < n) :
    terminalCellState ((setLoss n g).grid p).state := by
  show terminalCellState (((rowMajor n).foldl (detonateCellStep n) g).grid p).state
  exact foldl_grid_establish (detonateCellStep n) (fun c => terminalCellState c.state)
    (detonateCellStep_local n) (detonateCellStep_terminal n)
    (rowMajor n) g p (mem_rowMajor.mpr ⟨h1, h2⟩)

theorem openOrDetonate_armed {c : Cell}
    (h : c.state = CellState.INITIAL ∨ c.state = CellState.MARKED_AS_BOMB)
    (hb : c.isBomb = true) :
    c.openOrDetonate = ({ c with state := CellState.DETONATED }, true) := by
  simp [Cell.openOrDetonate, Cell.openOrDoOtherIfBomb, h, hb]

/-- Opening an armed bomb cell (INITIAL or MARKED_AS_BOMB, with a bomb)
detonates it and immediately resolves the loss. -/
theorem openCellRec_armed_bomb (n fuel : Nat) (g : Game) (p : Nat × Nat)
    (h : (g.grid p).state = CellState.INITIAL ∨
      (g.grid p).state = CellState.MARKED_AS_BOMB)
    (hb : (g.grid p).isBomb = true) :
    openCellRec n (fuel + 1) g p
      = setLoss n (notifyCellStateChanged n
          (setCell g p { g.grid p with state := CellState.DETONATED }) p) := by
  have hr := openOrDetonate_armed h hb
  simp [openCellRec, hr]

/-- C4: on a RUNNING game, an `openCell` whose recursive open detonates the
(armed bomb) target cell returns with game state LOSS and with every
in-range cell in a terminal state (OPENED, DEFUSED, or DETONATED) — no
cell remains INITIAL or MARKED_AS_BOMB.  (In a reachable game the flood
fill only ever recurses into bomb-free neighbourhoods, so the detonated
cell is exactly the targeted one.) -/
theorem detonation_yields_loss_and_all_terminal (n : Nat) (g : Game) (x y : Nat)
    (hrun : g.state = GameState.RUNNING) (hx : x < n) (hy : y < n)
    (hbomb : (g.grid (x, y)).isBomb = true)
    (harm : (g.grid (x, y)).state = CellState.INITIAL ∨
      (g.grid (x, y)).state = CellState.MARKED_AS_BOMB) :
    ∃ g2, openCell n g x y = some g2 ∧ g2.state = GameState.LOSS ∧
      ∀ p : Nat × Nat, p.1 < n → p.2 < n → terminalCellState ((g2.grid p).state) := by
  have hgate := startGameIfNeeded_running hrun
  have hrec := openCellRec_armed_bomb n (n * n) g (x, y) harm hbomb
  refine ⟨setLoss n (notifyCellStateChanged n
      (setCell g (x, y) { g.grid (x, y) with state := CellState.DETONATED }) (x, y)),
    ?_, setLoss_state n _, fun p h1 h2 => setLoss_grid_terminal n _ p h1 h2⟩
  simp only [openCell, hgate]
  simp only [if_pos (And.intro hx hy)]
  rw [hrec, setWinIfNeeded_not_running (by rw [setLoss_state]; simp)]
  simp

/-- A 1x1 RUNNING game whose only cell is an armed bomb. -/
def armedGame1 : Game :=
  { state := GameState.RUNNING,
    grid := fun _ => { isBomb := true, state := CellState.INITIAL },
    events := [] }

/-- Witness for `detonation_yields_loss_and_all_terminal` on a 1x1 grid
whose only cell is an armed bomb. -/
theorem detonation_yields_loss_witness :
    ((armedGame1.state = GameState.RUNNING ∧ (0 : Nat) < 1 ∧ (0 : Nat) < 1 ∧
        (armedGame1.grid (0, 0)).isBomb = true ∧
        ((armedGame1.grid (0, 0)).state = CellState.INITIAL ∨
          (armedGame1.grid (0, 0)).state = CellState.MARKED_AS_BOMB)) ∧
      ∃ g2, openCell 1 armedGame1 0 0 = some g2 ∧ g2.state = GameState.LOSS ∧
        ∀ p : Nat × Nat, p.1 < 1 → p.2 < 1 →
          terminalCellState ((g2.grid p).state)) :=
  ⟨⟨rfl, by decide, by decide, rfl, Or.inl rfl⟩,
    detonation_yields_loss_and_all_terminal 1 armedGame1 0 0 rfl (by decide)
      (by decide) rfl (Or.inl rfl)⟩

/-! The bomb-placement loop: iteration bound and termination (C8). -/

theorem placeBombsLoop_iters_le (n bombN : Nat) (rand : Nat → Nat × Nat) :
    ∀ (fuel k : Nat) (g : Game) (placed budget : Nat),
      (placeBombsLoop n bombN rand fuel k g placed budget).2.2.2
        ≤ (bombN - placed) + budget := by
  intro fuel
  induction fuel with
  | zero =>
    intro k g placed budget
    simp [placeBombsLoop]
  | succ f ih =>
    intro k g placed budget
    rw [placeBombsLoop]
    by_cases h : placed < bombN ∧ budget ≠ 0
    · rw [if_pos h]
      by_cases hok : bombCanBeSetHere n g ((rand k).1 % n, (rand k).2 % n) = true
      · rw [if_pos hok]
        have := ih (k + 1)
          (setCell g ((rand k).1 % n, (rand k).2 % n)
            { g.grid ((rand k).1 % n, (rand k).2 % n) with isBomb := true })
          (placed + 1) budget
        rw [show ∀ r : Game × Nat × Nat × Nat, (incIter r).2.2.2 = r.2.2.2 + 1
          from fun r => rfl]
        omega
      · rw [if_neg hok]
        have := ih (k + 1) g placed (budget - 1)
        rw [show ∀ r : Game × Nat × Nat × Nat, (incIter r).2.2.2 = r.2.2.2 + 1
          from fun r => rfl]
        omega
    · rw [if_neg h]
      simp


theorem incIter_game (r : Game × Nat × Nat × Nat) : (incIter r).1 = r.1 := rfl

theorem incIter_placed (r : Game × Nat × Nat × Nat) : (incIter r).2.1 = r.2.1 := rfl

theorem incIter_budget (r : Game × Nat × Nat × Nat) : (incIter r).2.2.1 = r.2.2.1 := rfl

theorem placeBombsLoop_exits (n bombN : Nat) (rand : Nat → Nat × Nat) :
    ∀ (fuel k : Nat) (g : Game) (placed budget : Nat),
      (bombN - placed) + budget ≤ fuel →
      bombN ≤ (placeBombsLoop n bombN rand fuel k g placed budget).2.1 ∨
        (placeBombsLoop n bombN rand fuel k g placed budget).2.2.1 = 0 := by
  intro fuel
  induction fuel with
  | zero =>
    intro k g placed budget hfuel
    simp only [placeBombsLoop]
    omega
  | succ f ih =>
    intro k g placed budget hfuel
    rw [placeBombsLoop]
    by_cases h : placed < bombN ∧ budget ≠ 0
    · rw [if_pos h]
      by_cases hok : bombCanBeSetHere n g ((rand k).1 % n, (rand k).2 % n) = true
      · rw [if_pos hok, incIter_placed, incIter_budget]
        exact ih (k + 1) _ (placed + 1) budget (by omega)
      · rw [if_neg hok, incIter_placed, incIter_budget]
        exact ih (k + 1) g placed (budget - 1) (by omega)
    · rw [if_neg h]
      show bombN ≤ placed ∨ budget = 0
      omega

theorem placeBombsLoop_placed_le (n bombN : Nat) (rand : Nat → Nat × Nat) :
    ∀ (fuel k : Nat) (g : Game) (placed budget : Nat), placed ≤ bombN →
      (placeBombsLoop n bombN rand fuel k g placed budget).2.1 ≤ bombN := by
  intro fuel
  induction fuel with
  | zero =>
    intro k g placed budget hle
    simpa only [placeBombsLoop] using hle
  | succ f ih =>
    intro k g placed budget hle
    rw [placeBombsLoop]
    by_cases h : placed < bombN ∧ budget ≠ 0
    · rw [if_pos h]
      by_cases hok : bombCanBeSetHere n g ((rand k).1 % n, (rand k).2 % n) = true
      · rw [if_pos hok, incIter_placed]
        exact ih (k + 1) _ (placed + 1) budget (by omega)
      · rw [if_neg hok, incIter_placed]
        exact ih (k + 1) g placed (budget - 1) hle
    · rw [if_neg h]
      exact hle

/-- C8: the bomb-placement loop, entered with `placed = 0` and failure
budget `fieldSize * fieldSize`, performs at most
`bombNumber + fieldSize * fieldSize` iterations, and it terminates through
its own exit condition (every bomb placed, or the budget exhausted) —
each iteration either increments the number of placed bombs (bounded by
`bombNumber`) or strictly decrements the budget. -/
theorem placement_loop_iteration_bound (n bombN : Nat) (rand : Nat → Nat × Nat)
    (g : Game) :
    (placeBombsLoop n bombN rand (bombN + n * n) 0 g 0 (n * n)).2.2.2
        ≤ bombN + n * n ∧
      (bombN ≤ (placeBombsLoop n bombN rand (bombN + n * n) 0 g 0 (n * n)).2.1 ∨
        (placeBombsLoop n bombN rand (bombN + n * n) 0 g 0 (n * n)).2.2.1 = 0) := by
  constructor
  · have := placeBombsLoop_iters_le n bombN rand (bombN + n * n) 0 g 0 (n * n)
    omega
  · exact placeBombsLoop_exits n bombN rand (bombN + n * n) 0 g 0 (n * n) (by omega)

/-! Counting bombs (C3). -/

theorem rowMajor_nodup (n : Nat) : (rowMajor n).Nodup := by
  have h : rowMajor n = (List.range n) ×ˢ (List.range n) := rfl
  rw [h]
  exact (List.nodup_range n).product (List.nodup_range n)

theorem countP_update_true {l : List (Nat × Nat)} (hl : l.Nodup)
    {f f' : Nat × Nat → Bool} {p : Nat × Nat} (hp : p ∈ l)
    (hother : ∀ q, q ≠ p → f' q = f q) (hfp : f p = false) (hfp' : f' p = true) :
    l.countP f' = l.countP f + 1 := by
  induction l with
  | nil => cases hp
  | cons a t ih =>
    rw [List.countP_cons, List.countP_cons]
    rcases List.mem_cons.mp hp with rfl | hpt
    · have hnt : p ∉ t := (List.nodup_cons.mp hl).1
      have ht : t.countP f' = t.countP f :=
        List.countP_congr (fun q hq => by
          rw [hother q (fun hqa => hnt (hqa ▸ hq))])
      rw [ht, hfp, hfp']
      simp
    · have ha : a ≠ p := fun hap => (List.nodup_cons.mp hl).1 (hap ▸ hpt)
      rw [hother a ha, ih (List.nodup_cons.mp hl).2 hpt]
      omega

theorem countBombs_setCell_inc {n : Nat} {g : Game} {p : Nat × Nat}
    (h1 : p.1 < n) (h2 : p.2 < n) (hb : (g.grid p).isBomb = false) {c : Cell}
    (hc : c.isBomb = true) :
    countBombs n (setCell g p c) = countBombs n g + 1 := by
  unfold countBombs
  exact countP_update_true (rowMajor_nodup n) (mem_rowMajor.mpr ⟨h1, h2⟩)
    (fun q hq => by rw [setCell_grid_other _ _ hq]) hb
    (by rw [setCell_grid_same, hc])

theorem bombCanBeSetHere_not_bomb {n : Nat} {g : Game} {p : Nat × Nat}
    (h : bombCanBeSetHere n g p = true) : (g.grid p).isBomb = false := by
  by_contra hb
  simp only [Bool.not_eq_false] at hb
  simp [bombCanBeSetHere, hb] at h

theorem placeBombsLoop_count (n bombN : Nat) (rand : Nat → Nat × Nat)
    (hn : n ≠ 0) :
    ∀ (fuel k : Nat) (g : Game) (placed budget : Nat),
      countBombs n g = placed →
      countBombs n (placeBombsLoop n bombN rand fuel k g placed budget).1
        = (placeBombsLoop n bombN rand fuel k g placed budget).2.1 := by
  intro fuel
  induction fuel with
  | zero =>
    intro k g placed budget hcount
    simpa only [placeBombsLoop] using hcount
  | succ f ih =>
    intro k g placed budget hcount
    rw [placeBombsLoop]
    by_cases h : placed < bombN ∧ budget ≠ 0
    · rw [if_pos h]
      by_cases hok : bombCanBeSetHere n g ((rand k).1 % n, (rand k).2 % n) = true
      · rw [if_pos hok, incIter_game, incIter_placed]
        refine ih (k + 1) _ (placed + 1) budget ?_
        rw [countBombs_setCell_inc (Nat.mod_lt _ (Nat.pos_of_ne_zero hn))
          (Nat.mod_lt _ (Nat.pos_of_ne_zero hn)) (bombCanBeSetHere_not_bomb hok) rfl,
          hcount]
      · rw [if_neg hok, incIter_game, incIter_placed]
        exact ih (k + 1) g placed (budget - 1) hcount
    · rw [if_neg h]
      exact hcount

theorem clearCellStep_local (n : Nat) (acc : Game) (p q : Nat × Nat)
    (h : q ≠ p) : (clearCellStep n acc p).grid q = acc.grid q := by
  unfold clearCellStep
  by_cases hr : ((acc.grid p).clear).2 = true
  · simp only [hr, if_true, notify_grid]
    exact setCell_grid_other _ _ h
  · simp only [Bool.not_eq_true] at hr
    simp only [hr, Bool.false_eq_true, if_false]
    exact setCell_grid_other _ _ h

theorem clearCellStep_cleared (n : Nat) (acc : Game) (p : Nat × Nat) :
    (clearCellStep n acc p).grid p
      = { isBomb := false, state := CellState.INITIAL } := by
  unfold clearCellStep
  by_cases hr : ((acc.grid p).clear).2 = true
  · simp only [hr, if_true, notify_grid]
    exact setCell_grid_same _ _ _
  · simp only [Bool.not_eq_true] at hr
    simp only [hr, Bool.false_eq_true, if_false]
    exact setCell_grid_same _ _ _

theorem clearCells_grid (n : Nat) (g : Game) (p : Nat × Nat)
    (h1 : p.1 < n) (h2 : p.2 < n) :
    (clearCells n g).grid p = { isBomb := false, state := CellState.INITIAL } :=
  foldl_grid_establish (clearCellStep n)
    (fun c => c = { isBomb := false, state := CellState.INITIAL })
    (clearCellStep_local n) (clearCellStep_cleared n)
    (rowMajor n) g p (mem_rowMajor.mpr ⟨h1, h2⟩)

theorem countBombs_clearCells (n : Nat) (g : Game) :
    countBombs n (clearCells n g) = 0 := by
  refine List.countP_eq_zero.mpr ?_
  intro p hp
  rw [clearCells_grid n g p (mem_rowMajor.mp hp).1 (mem_rowMajor.mp hp).2]
  simp

theorem placeBombsLoop_budget_zero (n bombN : Nat) (rand : Nat → Nat × Nat)
    (fuel k : Nat) (g : Game) (placed : Nat) :
    placeBombsLoop n bombN rand fuel k g placed 0 = (g, placed, 0, 0) := by
  cases fuel <;> simp [placeBombsLoop]

/-- C3: whenever the bomb-placement loop (entered on the cleared grid with
`placed = 0` and budget `fieldSize * fieldSize`) exits with a non-zero
remaining failure budget, exactly `bombNumber` cells of the resulting grid
hold a bomb: the cleared grid has zero bombs and every successful
iteration places a bomb into a previously bomb-free cell. -/
theorem placement_success_places_exactly_bombNumber (n bombN : Nat)
    (rand : Nat → Nat × Nat) (g : Game)
    (hbudget : (placeBombsLoop n bombN rand (bombN + n * n) 0 (clearCells n g) 0
        (n * n)).2.2.1 ≠ 0) :
    countBombs n (placeBombsLoop n bombN rand (bombN + n * n) 0 (clearCells n g) 0
        (n * n)).1 = bombN := by
  by_cases hn : n = 0
  · exfalso
    apply hbudget
    subst hn
    rw [show (0 * 0 : Nat) = 0 from rfl, placeBombsLoop_budget_zero]
  · have hinv := placeBombsLoop_count n bombN rand hn (bombN + n * n) 0
      (clearCells n g) 0 (n * n) (countBombs_clearCells n g)
    have hexit := placeBombsLoop_exits n bombN rand (bombN + n * n) 0
      (clearCells n g) 0 (n * n) (by omega)
    have hle := placeBombsLoop_placed_le n bombN rand (bombN + n * n) 0
      (clearCells n g) 0 (n * n) (Nat.zero_le _)
    rcases hexit with hge | h0
    · rw [hinv]; omega
    · exact absurd h0 hbudget

/-- Witness for `placement_success_places_exactly_bombNumber`: one bomb on
a 2x2 field, always proposed at the origin; the budget is untouched. -/
theorem placement_success_places_exactly_bombNumber_witness :
    (placeBombsLoop 2 1 constRand (1 + 2 * 2) 0 (clearCells 2 allOpenedWinGame) 0
        (2 * 2)).2.2.1 ≠ 0 ∧
      countBombs 2 (placeBombsLoop 2 1 constRand (1 + 2 * 2) 0
        (clearCells 2 allOpenedWinGame) 0 (2 * 2)).1 = 1 :=
  ⟨by decide, placement_success_places_exactly_bombNumber 2 1 constRand
    allOpenedWinGame (by decide)⟩

/-! The solvability check of bomb placement (C1). -/

theorem allAdjacent_false_iff {n : Nat} {g : Game} {p : Nat × Nat} :
    allAdjacentCellsAreBombs n g p = false ↔
      ∃ t ∈ adjacentPositions n p, (g.grid t).isBomb = false := by
  unfold allAdjacentCellsAreBombs
  simp

theorem bombCanBeSetHere_spec {n : Nat} {g : Game} {p : Nat × Nat}
    (h : bombCanBeSetHere n g p = true) :
    (g.grid p).isBomb = false ∧ allAdjacentCellsAreBombs n g p = false ∧
      ∀ q ∈ adjacentPositions n p,
        ((setCell g p { g.grid p with isBomb := true }).grid q).isBomb = true →
        allAdjacentCellsAreBombs n
          (setCell g p { g.grid p with isBomb := true }) q = false := by
  have hb := bombCanBeSetHere_not_bomb h
  unfold bombCanBeSetHere at h
  rw [hb] at h
  simp only [Bool.false_eq_true, if_false] at h
  by_cases hs : allAdjacentCellsAreBombs n g p = true
  · rw [hs] at h
    simp at h
  · simp only [Bool.not_eq_true] at hs
    rw [hs] at h
    simp only [Bool.false_eq_true, if_false] at h
    refine ⟨hb, hs, ?_⟩
    intro q hq hbq
    rw [Bool.not_eq_true'] at h
    have hq2 := List.any_eq_false.mp h q hq
    rw [hbq] at hq2
    simpa using hq2

/-- The invariant the placement loop maintains: no cell holding a bomb is
fully surrounded by bombs. -/
def noSurroundedBombs (n : Nat) (g : Game) : Prop :=
  ∀ p : Nat × Nat, p.1 < n → p.2 < n → (g.grid p).isBomb = true →
    allAdjacentCellsAreBombs n g p = false

theorem noSurroundedBombs_place {n : Nat} {g : Game} {p : Nat × Nat}
    (hp1 : p.1 < n) (hp2 : p.2 < n)
    (hok : bombCanBeSetHere n g p = true) (hinv : noSurroundedBombs n g) :
    noSurroundedBombs n (setCell g p { g.grid p with isBomb := true }) := by
  obtain ⟨hb, hs, hadj⟩ := bombCanBeSetHere_spec hok
  intro q hq1 hq2 hqb
  by_cases hqp : q = p
  · subst hqp
    obtain ⟨t, ht, htb⟩ := allAdjacent_false_iff.mp hs
    refine allAdjacent_false_iff.mpr ⟨t, ht, ?_⟩
    rw [setCell_grid_other _ _ (mem_adjacentPositions.mp ht).1]
    exact htb
  · by_cases hadjq : q ∈ adjacentPositions n p
    · exact hadj q hadjq hqb
    · have hqb2 : (g.grid q).isBomb = true := by
        rw [setCell_grid_other _ _ hqp] at hqb
        exact hqb
      obtain ⟨t, ht, htb⟩ := allAdjacent_false_iff.mp (hinv q hq1 hq2 hqb2)
      have htp : t ≠ p := by
        rintro rfl
        exact hadjq (adjacentPositions_symm ht hq1 hq2)
      refine allAdjacent_false_iff.mpr ⟨t, ht, ?_⟩
      rw [setCell_grid_other _ _ htp]
      exact htb

theorem placeBombsLoop_no_surrounded (n bombN : Nat) (rand : Nat → Nat × Nat)
    (hn : n ≠ 0) :
    ∀ (fuel k : Nat) (g : Game) (placed budget : Nat),
      noSurroundedBombs n g →
      noSurroundedBombs n (placeBombsLoop n bombN rand fuel k g placed budget).1 := by
  intro fuel
  induction fuel with
  | zero =>
    intro k g placed budget hinv
    simpa only [placeBombsLoop] using hinv
  | succ f ih =>
    intro k g placed budget hinv
    rw [placeBombsLoop]
    by_cases h : placed < bombN ∧ budget ≠ 0
    · rw [if_pos h]
      by_cases hok : bombCanBeSetHere n g ((rand k).1 % n, (rand k).2 % n) = true
      · rw [if_pos hok, incIter_game]
        exact ih (k + 1) _ (placed + 1) budget
          (noSurroundedBombs_place (Nat.mod_lt _ (Nat.pos_of_ne_zero hn))
            (Nat.mod_lt _ (Nat.pos_of_ne_zero hn)) hok hinv)
      · rw [if_neg hok, incIter_game]
        exact ih (k + 1) g placed (budget - 1) hinv
    · rw [if_neg h]
      exact hinv

/-- C1 (amended: restricted to bomb cells, and holding for every placement
outcome): after `_setBombsOnGameField`, no cell that holds a bomb has
bombs in all of its edge-clipped 8-neighbourhood cells.  The check in the
loop only protects the picked cell and its bomb-holding neighbours, so a
bomb-free cell can still end up fully surrounded (see the
counterexample). -/
theorem placement_no_bomb_cell_fully_surrounded (n bombN : Nat)
    (rand : Nat → Nat × Nat) (g : Game) (p : Nat × Nat)
    (h1 : p.1 < n) (h2 : p.2 < n)
    (hb : ((setBombsOnGameField n bombN rand g).grid p).isBomb = true) :
    allAdjacentCellsAreBombs n (setBombsOnGameField n bombN rand g) p = false := by
  by_cases hn : n = 0
  · subst hn
    exact absurd h1 (by omega)
  · have hclear : noSurroundedBombs n (clearCells n g) := by
      intro q hq1 hq2 hqb
      rw [clearCells_grid n g q hq1 hq2] at hqb
      cases hqb
    have hinv := placeBombsLoop_no_surrounded n bombN rand hn (bombN + n * n) 0
      (clearCells n g) 0 (n * n) hclear
    exact hinv p h1 h2 hb

/-- Witness for `placement_no_bomb_cell_fully_surrounded`: one bomb placed
at the origin of a 2x2 field. -/
theorem placement_no_bomb_cell_fully_surrounded_witness :
    ((0 : Nat) < 2 ∧ (0 : Nat) < 2 ∧
        ((setBombsOnGameField 2 1 constRand freshGame).grid (0, 0)).isBomb = true) ∧
      allAdjacentCellsAreBombs 2 (setBombsOnGameField 2 1 constRand freshGame) (0, 0)
        = false :=
  ⟨⟨by decide, by decide, by decide⟩,
    placement_no_bomb_cell_fully_surrounded 2 1 constRand freshGame (0, 0)
      (by decide) (by decide) (by decide)⟩

/-- An attempt stream that proposes (0,1), then (1,0), then (1,1). -/
def rand3 : Nat → Nat × Nat :=
  fun k => if k = 0 then (0, 1) else if k = 1 then (1, 0) else (1, 1)

/-- Counterexample to C1 as stated: on a 3x3 field with 3 bombs proposed
at (0,1), (1,0), (1,1), placement succeeds (all 3 bombs placed, the
failure budget untouched at 9), yet the bomb-free corner (0,0) has bombs
in every cell of its 8-neighbourhood — the loop's check never examines
bomb-free neighbours of the picked cell. -/
theorem placement_can_fully_surround_nonbomb_cell :
    countBombs 3 (mkMinesweeper 3 3 rand3) = 3 ∧
      (placeBombsLoop 3 3 rand3 (3 + 3 * 3) 0 (clearCells 3 freshGame) 0
          (3 * 3)).2.2.1 = 3 * 3 ∧
      ((mkMinesweeper 3 3 rand3).grid (0, 0)).isBomb = false ∧
      allAdjacentCellsAreBombs 3 (mkMinesweeper 3 3 rand3) (0, 0) = true := by
  refine ⟨?_, ?_, ?_, ?_⟩ <;> decide

/-! The flood fill (C5): supporting notions. -/

theorem openableCell_iff {c : Cell} :
    openableCell c = true ↔
      (c.state = CellState.INITIAL ∨ c.state = CellState.MARKED_AS_BOMB) := by
  unfold openableCell
  cases c.state <;> simp

theorem openOrDoOther_noop {c : Cell} {other : CellState}
    (h : ¬(c.state = CellState.INITIAL ∨ c.state = CellState.MARKED_AS_BOMB)) :
    c.openOrDoOtherIfBomb other = (c, false) := by
  simp [Cell.openOrDoOtherIfBomb, h]

theorem openOrDetonate_safe {c : Cell}
    (h : c.state = CellState.INITIAL ∨ c.state = CellState.MARKED_AS_BOMB)
    (hb : c.isBomb = false) :
    c.openOrDetonate = ({ c with state := CellState.OPENED }, true) := by
  simp [Cell.openOrDetonate, Cell.openOrDoOtherIfBomb, h, hb]

theorem Reach_lt {n : Nat} {g : Game} {p0 : Nat × Nat}
    (hp0 : p0.1 < n ∧ p0.2 < n) :
    ∀ q, Reach n g p0 q → q.1 < n ∧ q.2 < n := by
  intro q hq
  induction hq with
  | base => exact hp0
  | step q r _ _ hr _ => exact mem_adjacentPositions_lt hr

theorem Reach_not_bomb {n : Nat} {g : Game} {p0 : Nat × Nat}
    (hnb : (g.grid p0).isBomb = false) :
    ∀ q, Reach n g p0 q → (g.grid q).isBomb = false := by
  intro q hq
  induction hq with
  | base => exact hnb
  | step q r _ hz hr _ =>
    have := List.countP_eq_zero.mp hz r hr
    simpa using this

/-- The part of the grid the flood fill starting at `p0` may change, and
how: an evolution `g` of the initial game `g0` keeps all bomb flags and
the game state, and differs from `g0` at most by turning cells of the
reach set to OPENED. -/
def FloodInv (n : Nat) (g0 : Game) (p0 : Nat × Nat) (g : Game) : Prop :=
  (∀ q, (g.grid q).isBomb = (g0.grid q).isBomb) ∧
  (∀ q, ¬Reach n g0 p0 q → g.grid q = g0.grid q) ∧
  (∀ q, Reach n g0 p0 q →
    g.grid q = g0.grid q ∨ (g.grid q).state = CellState.OPENED) ∧
  g.state = g0.state

/-- One flood step relation: `h` evolves from `g` by keeping bombs and the
game state, never un-opening a cell, and changing cells only inside the
reach set, to OPENED. -/
def FloodMono (n : Nat) (g0 : Game) (p0 : Nat × Nat) (g h : Game) : Prop :=
  (∀ q, (h.grid q).isBomb = (g.grid q).isBomb) ∧
  (∀ q, (g.grid q).state = CellState.OPENED →
    (h.grid q).state = CellState.OPENED) ∧
  (∀ q, h.grid q ≠ g.grid q →
    Reach n g0 p0 q ∧ (h.grid q).state = CellState.OPENED) ∧
  h.state = g.state

/-- Every cell newly opened between `g` and `h` that has zero adjacent
bombs (in the fixed initial game `g0`) has all its neighbours opened in
`h`. -/
def NewSat (n : Nat) (g0 g h : Game) : Prop :=
  ∀ q, (h.grid q).state = CellState.OPENED →
    (g.grid q).state ≠ CellState.OPENED →
    numberAdjacentBombs n g0 q = 0 →
    ∀ r ∈ adjacentPositions n q, (h.grid r).state = CellState.OPENED

theorem FloodMono.refl {n : Nat} {g0 : Game} {p0 : Nat × Nat} {g : Game} :
    FloodMono n g0 p0 g g :=
  ⟨fun _ => rfl, fun _ h => h, fun _ hq => absurd rfl hq, rfl⟩

theorem FloodMono.trans {n : Nat} {g0 : Game} {p0 : Nat × Nat} {g h k : Game}
    (h1 : FloodMono n g0 p0 g h) (h2 : FloodMono n g0 p0 h k) :
    FloodMono n g0 p0 g k := by
  obtain ⟨b1, o1, c1, s1⟩ := h1
  obtain ⟨b2, o2, c2, s2⟩ := h2
  refine ⟨fun q => (b2 q).trans (b1 q), fun q hq => o2 q (o1 q hq), ?_,
    s2.trans s1⟩
  intro q hq
  by_cases hk : k.grid q = h.grid q
  · rw [hk] at hq ⊢
    exact c1 q hq
  · exact ⟨(c2 q hk).1, (c2 q hk).2⟩

theorem newSat_refl {n : Nat} {g0 g : Game} : NewSat n g0 g g :=
  fun _ hq hq2 _ _ _ => absurd hq hq2

theorem NewSat.compose {n : Nat} {g0 : Game} {p0 : Nat × Nat} {g h k : Game}
    (hm2 : FloodMono n g0 p0 h k)
    (h1 : NewSat n g0 g h) (h2 : NewSat n g0 h k) :
    NewSat n g0 g k := by
  intro q hq hq2 hz r hr
  by_cases hh : (h.grid q).state = CellState.OPENED
  · exact hm2.2.1 r (h1 q hh hq2 hz r hr)
  · exact h2 q hq hh hz r hr

theorem FloodInv.of_mono {n : Nat} {g0 : Game} {p0 : Nat × Nat} {g h : Game}
    (hi : FloodInv n g0 p0 g) (hm : FloodMono n g0 p0 g h) :
    FloodInv n g0 p0 h := by
  obtain ⟨b1, u1, r1, s1⟩ := hi
  obtain ⟨b2, o2, c2, s2⟩ := hm
  refine ⟨fun q => (b2 q).trans (b1 q), ?_, ?_, s2.trans s1⟩
  · intro q hq
    by_cases hk : h.grid q = g.grid q
    · rw [hk]
      exact u1 q hq
    · exact absurd (c2 q hk).1 hq
  · intro q hq
    by_cases hk : h.grid q = g.grid q
    · rw [hk]
      exact r1 q hq
    · exact Or.inr (c2 q hk).2

theorem countP_le_of_pointwise {α : Type} (l : List α) (p q : α → Bool)
    (h : ∀ a ∈ l, p a = true → q a = true) : l.countP p ≤ l.countP q := by
  induction l with
  | nil => exact Nat.le_refl _
  | cons b t ih =>
    rw [List.countP_cons, List.countP_cons]
    have ht := ih (fun a ha => h a (List.mem_cons_of_mem b ha))
    by_cases hp : p b = true
    · rw [hp, h b (List.mem_cons_self b t) hp]
      omega
    · simp only [Bool.not_eq_true] at hp
      rw [hp]
      simp only [Bool.false_eq_true, if_false]
      omega

theorem countP_lt_of_flip {α : Type} (l : List α) (p q : α → Bool)
    (h : ∀ a ∈ l, p a = true → q a = true) (a : α) (ha : a ∈ l)
    (hpa : p a = false) (hqa : q a = true) : l.countP p < l.countP q := by
  induction l with
  | nil => cases ha
  | cons b t ih =>
    rw [List.countP_cons, List.countP_cons]
    rcases List.mem_cons.mp ha with rfl | hat
    · rw [hpa, hqa]
      have := countP_le_of_pointwise t p q (fun x hx => h x (List.mem_cons_of_mem a hx))
      simp only [Bool.false_eq_true, if_false, if_pos]
      omega
    · have ht := ih (fun x hx => h x (List.mem_cons_of_mem b hx)) hat
      have hb : (if p b = true then 1 else 0) ≤ (if q b = true then 1 else 0) := by
        by_cases hp : p b = true
        · rw [if_pos hp, if_pos (h b (List.mem_cons_self b t) hp)]
        · rw [if_neg hp]
          omega
      omega

theorem openableCount_le {n : Nat} {g h : Game}
    (hpt : ∀ q, openableCell (h.grid q) = true → openableCell (g.grid q) = true) :
    openableCount n h ≤ openableCount n g :=
  countP_le_of_pointwise (rowMajor n) _ _ (fun a _ => hpt a)

theorem openableCount_lt {n : Nat} {g h : Game} {p : Nat × Nat}
    (hpt : ∀ q, openableCell (h.grid q) = true → openableCell (g.grid q) = true)
    (hp1 : p.1 < n) (hp2 : p.2 < n)
    (hh : openableCell (h.grid p) = false) (hg : openableCell (g.grid p) = true) :
    openableCount n h < openableCount n g :=
  countP_lt_of_flip (rowMajor n) _ _ (fun a _ => hpt a) p
    (mem_rowMajor.mpr ⟨hp1, hp2⟩) hh hg

theorem numberAdjacentBombs_congr {n : Nat} {g h : Game}
    (hb : ∀ q, (h.grid q).isBomb = (g.grid q).isBomb) (p : Nat × Nat) :
    numberAdjacentBombs n h p = numberAdjacentBombs n g p :=
  List.countP_congr (fun q _ => by rw [hb q])

theorem foldl_grid_outside (f : Game → Nat × Nat → Game)
    (hloc : ∀ acc p q, q ≠ p → (f acc p).grid q = acc.grid q) :
    ∀ (l : List (Nat × Nat)) (g : Game) (q : Nat × Nat),
      (∀ p ∈ l, q ≠ p) → (l.foldl f g).grid q = g.grid q := by
  intro l
  induction l with
  | nil => intro g q _; rfl
  | cons p t ih =>
    intro g q hq
    rw [List.foldl_cons, ih (f g p) q (fun r hr => hq r (List.mem_cons_of_mem p hr)),
      hloc g p q (hq p (List.mem_cons_self p t))]

theorem openableCell_false_of_opened {c : Cell} (h : c.state = CellState.OPENED) :
    openableCell c = false := by
  simp [openableCell, h]

theorem FloodMono.openable_pointwise {n : Nat} {g0 : Game} {p0 : Nat × Nat}
    {g h : Game} (hm : FloodMono n g0 p0 g h) :
    ∀ q, openableCell (h.grid q) = true → openableCell (g.grid q) = true := by
  intro q hq
  by_cases he : h.grid q = g.grid q
  · rw [← he]
    exact hq
  · rw [openableCell_false_of_opened (hm.2.2.1 q he).2] at hq
    cases hq

theorem openCellRec_noop {n fuel : Nat} {g : Game} {p : Nat × Nat}
    (h : ¬((g.grid p).state = CellState.INITIAL ∨
      (g.grid p).state = CellState.MARKED_AS_BOMB)) :
    openCellRec n (fuel + 1) g p = g := by
  have hr : (g.grid p).openOrDetonate = (g.grid p, false) := openOrDoOther_noop h
  simp [openCellRec, hr]

theorem openCellRec_safe_open {n fuel : Nat} {g : Game} {p : Nat × Nat}
    (h : (g.grid p).state = CellState.INITIAL ∨
      (g.grid p).state = CellState.MARKED_AS_BOMB)
    (hb : (g.grid p).isBomb = false) :
    openCellRec n (fuel + 1) g p =
      if numberAdjacentBombs n
          (notifyCellStateChanged n
            (setCell g p { g.grid p with state := CellState.OPENED }) p) p = 0
      then (adjacentPositions n p).foldl (openCellRec n fuel)
        (notifyCellStateChanged n
          (setCell g p { g.grid p with state := CellState.OPENED }) p)
      else notifyCellStateChanged n
        (setCell g p { g.grid p with state := CellState.OPENED }) p := by
  have hr := openOrDetonate_safe h hb
  simp [openCellRec, hr]

theorem openStep_grid_at (n : Nat) (g : Game) (p : Nat × Nat) :
    (notifyCellStateChanged n
        (setCell g p { g.grid p with state := CellState.OPENED }) p).grid p
      = { g.grid p with state := CellState.OPENED } := by
  rw [notify_grid, setCell_grid_same]

theorem openStep_grid_other (n : Nat) (g : Game) {p q : Nat × Nat} (hq : q ≠ p) :
    (notifyCellStateChanged n
        (setCell g p { g.grid p with state := CellState.OPENED }) p).grid q
      = g.grid q := by
  rw [notify_grid, setCell_grid_other _ _ hq]

theorem openStep_mono {n : Nat} {g0 : Game} {p0 : Nat × Nat} (g : Game)
    {p : Nat × Nat} (hreach : Reach n g0 p0 p) :
    FloodMono n g0 p0 g
      (notifyCellStateChanged n
        (setCell g p { g.grid p with state := CellState.OPENED }) p) := by
  refine ⟨?_, ?_, ?_, ?_⟩
  · intro q
    by_cases hq : q = p
    · subst hq
      rw [openStep_grid_at]
    · rw [openStep_grid_other n g hq]
  · intro q hq
    by_cases hqp : q = p
    · subst hqp
      rw [openStep_grid_at]
    · rw [openStep_grid_other n g hqp]
      exact hq
  · intro q hq
    by_cases hqp : q = p
    · subst hqp
      rw [openStep_grid_at]
      exact ⟨hreach, rfl⟩
    · rw [openStep_grid_other n g hqp] at hq
      exact absurd rfl hq
  · rw [notify_state, setCell_state]

theorem openStep_count_lt {n : Nat} (g : Game) {p : Nat × Nat}
    (hp1 : p.1 < n) (hp2 : p.2 < n) (hop : openableCell (g.grid p) = true) :
    openableCount n
        (notifyCellStateChanged n
          (setCell g p { g.grid p with state := CellState.OPENED }) p)
      < openableCount n g := by
  refine openableCount_lt ?_ hp1 hp2 ?_ hop
  · intro q hq
    by_cases hqp : q = p
    · subst hqp
      rw [openStep_grid_at] at hq
      rw [openableCell_false_of_opened rfl] at hq
      cases hq
    · rw [openStep_grid_other n g hqp] at hq
      exact hq
  · rw [openStep_grid_at]
    exact openableCell_false_of_opened rfl

/-- Master specification of the recursive open on bomb-free, openable
reach sets: the call monotonically opens cells only inside the reach set,
every newly opened zero-adjacency cell ends with all neighbours opened,
and the target cell ends OPENED. -/
theorem openCellRec_spec (n : Nat) (g0 : Game) (p0 : Nat × Nat)
    (hp0 : p0.1 < n ∧ p0.2 < n) (hnb : (g0.grid p0).isBomb = false)
    (hopen : ∀ q, Reach n g0 p0 q → openableCell (g0.grid q) = true) :
    ∀ (fuel : Nat) (g : Game) (p : Nat × Nat), FloodInv n g0 p0 g →
      Reach n g0 p0 p → openableCount n g < fuel →
      FloodMono n g0 p0 g (openCellRec n fuel g p) ∧
      NewSat n g0 g (openCellRec n fuel g p) ∧
      ((openCellRec n fuel g p).grid p).state = CellState.OPENED := by
  intro fuel
  induction fuel with
  | zero =>
    intro g p _ _ hf
    exact absurd hf (by omega)
  | succ f ih =>
    intro g p hinv hreach hfuel
    rcases hinv.2.2.1 p hreach with heq | hopened
    · -- the cell at p is still as in g0: openable and bomb-free
      have hop : (g.grid p).state = CellState.INITIAL ∨
          (g.grid p).state = CellState.MARKED_AS_BOMB := by
        rw [heq]
        exact openableCell_iff.mp (hopen p hreach)
      have hbp : (g.grid p).isBomb = false := by
        rw [heq]
        exact Reach_not_bomb hnb p hreach
      have hopg : openableCell (g.grid p) = true := by
        rw [heq]
        exact hopen p hreach
      have hplt := Reach_lt hp0 p hreach
      have hmono1 := @openStep_mono n g0 p0 g p hreach
      have hinv1 := hinv.of_mono hmono1
      have hcnt1 := openStep_count_lt g hplt.1 hplt.2 hopg
      have hg1p := openStep_grid_at n g p
      have hg1opened : ((notifyCellStateChanged n
          (setCell g p { g.grid p with state := CellState.OPENED }) p).grid p).state
            = CellState.OPENED := by
        rw [hg1p]
      rw [openCellRec_safe_open hop hbp]
      by_cases hz : numberAdjacentBombs n
          (notifyCellStateChanged n
            (setCell g p { g.grid p with state := CellState.OPENED }) p) p = 0
      · -- zero adjacent bombs: recursive fold over the neighbours
        rw [if_pos hz]
        have hz0 : numberAdjacentBombs n g0 p = 0 := by
          rw [← hz]
          refine (numberAdjacentBombs_congr ?_ p).symm
          intro q
          exact (hmono1.1 q).trans (hinv.1 q)
        have hadjreach : ∀ q ∈ adjacentPositions n p, Reach n g0 p0 q :=
          fun q hq => Reach.step p q hreach hz0 hq
        have hfold : ∀ (l : List (Nat × Nat)), (∀ q ∈ l, Reach n g0 p0 q) →
            ∀ h : Game, FloodInv n g0 p0 h → openableCount n h < f →
            FloodMono n g0 p0 h (l.foldl (openCellRec n f) h) ∧
            NewSat n g0 h (l.foldl (openCellRec n f) h) ∧
            (∀ q ∈ l,
              ((l.foldl (openCellRec n f) h).grid q).state = CellState.OPENED) := by
          intro l
          induction l with
          | nil =>
            intro _ h _ _
            exact ⟨FloodMono.refl, newSat_refl, by simp⟩
          | cons q t iht =>
            intro hql h hinvh hfh
            have h1 := ih h q hinvh (hql q (List.mem_cons_self q t)) hfh
            have hinvh1 := hinvh.of_mono h1.1
            have hcle : openableCount n (openCellRec n f h q) ≤ openableCount n h :=
              openableCount_le h1.1.openable_pointwise
            have h2 := iht (fun r hr => hql r (List.mem_cons_of_mem q hr))
              (openCellRec n f h q) hinvh1 (Nat.lt_of_le_of_lt hcle hfh)
            rw [List.foldl_cons]
            refine ⟨h1.1.trans h2.1, NewSat.compose h2.1 h1.2.1 h2.2.1, ?_⟩
            intro r hr
            rcases List.mem_cons.mp hr with rfl | hrt
            · exact h2.1.2.1 r h1.2.2
            · exact h2.2.2 r hrt
        obtain ⟨hm2, hs2, hop2⟩ := hfold (adjacentPositions n p) hadjreach _ hinv1
          (by omega)
        refine ⟨hmono1.trans hm2, ?_, hm2.2.1 p hg1opened⟩
        intro q hq hq2 hzq r hr
        by_cases hqp : q = p
        · subst hqp
          exact hop2 r hr
        · have hg1q := openStep_grid_other n g hqp
          refine hs2 q hq ?_ hzq r hr
          rw [hg1q]
          exact hq2
      · -- some adjacent bomb: only p opens
        rw [if_neg hz]
        refine ⟨hmono1, ?_, hg1opened⟩
        intro q hq hq2 hzq r hr
        exfalso
        by_cases hqp : q = p
        · subst hqp
          apply hz
          rw [← hzq]
          refine numberAdjacentBombs_congr ?_ q
          intro s
          exact (hmono1.1 s).trans (hinv.1 s)
        · rw [openStep_grid_other n g hqp] at hq
          exact hq2 hq
    · -- the cell at p is already OPENED: the call is a no-op
      have hno : ¬((g.grid p).state = CellState.INITIAL ∨
          (g.grid p).state = CellState.MARKED_AS_BOMB) := by
        rw [hopened]
        simp
      rw [openCellRec_noop hno]
      exact ⟨FloodMono.refl, newSat_refl, hopened⟩

/-- Completeness of the flood fill: every cell of the reach set is OPENED
when the recursive open returns. -/
theorem openCellRec_opens_reach_set (n : Nat) (g0 : Game) (p0 : Nat × Nat)
    (hp0 : p0.1 < n ∧ p0.2 < n) (hnb : (g0.grid p0).isBomb = false)
    (hopen : ∀ q, Reach n g0 p0 q → openableCell (g0.grid q) = true)
    (fuel : Nat) (hfuel : openableCount n g0 < fuel) :
    ∀ q, Reach n g0 p0 q →
      ((openCellRec n fuel g0 p0).grid q).state = CellState.OPENED := by
  have hinv0 : FloodInv n g0 p0 g0 :=
    ⟨fun _ => rfl, fun _ _ => rfl, fun _ _ => Or.inl rfl, rfl⟩
  obtain ⟨hm, hs, hp⟩ := openCellRec_spec n g0 p0 hp0 hnb hopen fuel g0 p0 hinv0
    Reach.base hfuel
  intro q hq
  induction hq with
  | base => exact hp
  | step q r hq2 hz hr ihq =>
    have hnew : (g0.grid q).state ≠ CellState.OPENED := by
      rcases openableCell_iff.mp (hopen q hq2) with h | h <;> rw [h] <;> simp
    exact hs q ihq hnew hz r hr

/-! The win re-evaluation never creates or destroys an OPENED cell. -/

theorem defuseCellStep_local (n : Nat) (acc : Game) (p q : Nat × Nat)
    (h : q ≠ p) : (defuseCellStep n acc p).grid q = acc.grid q := by
  unfold defuseCellStep
  by_cases hr : ((acc.grid p).openOrDefuse).2 = true
  · simp only [hr, if_true, notify_grid]
    exact setCell_grid_other _ _ h
  · simp only [Bool.not_eq_true] at hr
    simp [hr]

theorem defuseCellStep_rel (n : Nat) (acc : Game) (p : Nat × Nat) :
    blocksWin (acc.grid p) = false →
      blocksWin ((defuseCellStep n acc p).grid p) = false ∧
      (((defuseCellStep n acc p).grid p).state = CellState.OPENED ↔
        (acc.grid p).state = CellState.OPENED) := by
  intro hbw
  cases hst : (acc.grid p).state
  case INITIAL =>
    rw [blocksWin, hst] at hbw
    simp at hbw
  case MARKED_AS_BOMB =>
    have hbomb : (acc.grid p).isBomb = true := by
      rw [blocksWin, hst] at hbw
      simpa using hbw
    have hr : (acc.grid p).openOrDefuse
        = ({ acc.grid p with state := CellState.DEFUSED }, true) := by
      simp [Cell.openOrDefuse, Cell.openOrDoOtherIfBomb, hst, hbomb]
    unfold defuseCellStep
    simp only [hr]
    simp only [if_true, notify_grid, setCell_grid_same]
    constructor
    · simp [blocksWin]
    · simp
  all_goals {
    have hr : (acc.grid p).openOrDefuse = (acc.grid p, false) :=
      openOrDoOther_noop (by rw [hst]; simp)
    unfold defuseCellStep
    simp only [hr]
    simp only [Bool.false_eq_true, if_false]
    exact ⟨hbw, by simp [hst]⟩
  }

theorem setWinIfNeeded_opened_iff (n : Nat) (g : Game) (q : Nat × Nat) :
    ((setWinIfNeeded n g).grid q).state = CellState.OPENED ↔
      (g.grid q).state = CellState.OPENED := by
  unfold setWinIfNeeded
  by_cases h1 : g.state ≠ GameState.RUNNING
  · simp [h1]
  · by_cases h2 : (rowMajor n).any (fun p => blocksWin (g.grid p)) = true
    · simp [h1, h2]
    · simp only [h1, h2]
      simp only [if_false, if_neg (fun h => h1 h), ite_not]
      show (((rowMajor n).foldl (defuseCellStep n) g).grid q).state
          = CellState.OPENED ↔ _
      by_cases hq : q ∈ rowMajor n
      · have hscan : blocksWin (g.grid q) = false := by
          rw [Bool.not_eq_true] at h2
          have hall := List.any_eq_false.mp h2 q hq
          rwa [Bool.not_eq_true] at hall
        have hrel := foldl_grid_rel (defuseCellStep n)
          (fun c c2 => blocksWin c = false →
            (blocksWin c2 = false ∧ (c2.state = CellState.OPENED ↔
              c.state = CellState.OPENED)))
          (fun c hc => ⟨hc, Iff.rfl⟩)
          (fun a b c hab hbc ha =>
            ⟨(hbc (hab ha).1).1, ((hbc (hab ha).1).2).trans (hab ha).2⟩)
          (defuseCellStep_local n) (defuseCellStep_rel n)
          (rowMajor n) g q
        exact (hrel hscan).2
      · rw [foldl_grid_outside (defuseCellStep n) (defuseCellStep_local n)
          (rowMajor n) g q (fun p hp hqp => hq (hqp ▸ hp))]

/-- C5 (amended: every cell of the reach set must still be openable —
INITIAL or MARKED_AS_BOMB): on a RUNNING game, opening an in-range,
bomb-free cell with zero adjacent bombs transitions to OPENED exactly the
cells of the reach set — the connected zero-adjacency region of the
target plus its bordering cells — and transitions no other cell to
OPENED. -/
theorem flood_fill_opens_exactly_reach_set (n : Nat) (g : Game) (x y : Nat)
    (hrun : g.state = GameState.RUNNING) (hx : x < n) (hy : y < n)
    (_hzero : numberAdjacentBombs n g (x, y) = 0)
    (hnb : (g.grid (x, y)).isBomb = false)
    (hopen : ∀ q, Reach n g (x, y) q → openableCell (g.grid q) = true) :
    ∃ g2, openCell n g x y = some g2 ∧
      ∀ q : Nat × Nat, q.1 < n → q.2 < n →
        (((g2.grid q).state = CellState.OPENED ∧
            (g.grid q).state ≠ CellState.OPENED)
          ↔ Reach n g (x, y) q) := by
  have hgate := startGameIfNeeded_running hrun
  refine ⟨setWinIfNeeded n (openCellRec n (n * n + 1) g (x, y)), ?_, ?_⟩
  · simp only [openCell, hgate]
    simp [hx, hy]
  · have hfuel : openableCount n g < n * n + 1 := by
      have hlen : openableCount n g ≤ (rowMajor n).length :=
        List.countP_le_length _
      rw [length_rowMajor] at hlen
      omega
    have hinv0 : FloodInv n g (x, y) g :=
      ⟨fun _ => rfl, fun _ _ => rfl, fun _ _ => Or.inl rfl, rfl⟩
    obtain ⟨hm, hs, hpp⟩ := openCellRec_spec n g (x, y) ⟨hx, hy⟩ hnb hopen
      (n * n + 1) g (x, y) hinv0 Reach.base hfuel
    have hcomplete := openCellRec_opens_reach_set n g (x, y) ⟨hx, hy⟩ hnb hopen
      (n * n + 1) hfuel
    intro q hq1 hq2
    rw [setWinIfNeeded_opened_iff]
    constructor
    · rintro ⟨hopened, hnot⟩
      by_contra hnr
      by_cases he : (openCellRec n (n * n + 1) g (x, y)).grid q = g.grid q
      · rw [he] at hopened
        exact hnot hopened
      · exact hnr (hm.2.2.1 q he).1
    · intro hr
      refine ⟨hcomplete q hr, ?_⟩
      rcases openableCell_iff.mp (hopen q hr) with h | h <;> rw [h] <;> simp

/-- A concrete RUNNING 2x2 game, bomb-free, all cells INITIAL (the whole
grid is one zero-adjacency region). -/
theorem flood_fill_opens_exactly_reach_set_witness :
    (allInitialGame2.state = GameState.RUNNING ∧ (0 : Nat) < 2 ∧ (0 : Nat) < 2 ∧
        numberAdjacentBombs 2 allInitialGame2 (0, 0) = 0 ∧
        (allInitialGame2.grid (0, 0)).isBomb = false ∧
        (∀ q, Reach 2 allInitialGame2 (0, 0) q →
          openableCell (allInitialGame2.grid q) = true)) ∧
      ∃ g2, openCell 2 allInitialGame2 0 0 = some g2 ∧
        ∀ q : Nat × Nat, q.1 < 2 → q.2 < 2 →
          (((g2.grid q).state = CellState.OPENED ∧
              (allInitialGame2.grid q).state ≠ CellState.OPENED)
            ↔ Reach 2 allInitialGame2 (0, 0) q) :=
  ⟨⟨rfl, by decide, by decide, by decide, rfl, fun q _ => rfl⟩,
    flood_fill_opens_exactly_reach_set 2 allInitialGame2 0 0 rfl (by decide)
      (by decide) (by decide) rfl (fun q _ => rfl)⟩

/-- A 1x1 RUNNING game whose only cell is already OPENED. -/
def openedGame1 : Game :=
  { state := GameState.RUNNING,
    grid := fun _ => { isBomb := false, state := CellState.OPENED },
    events := [] }

/-- Counterexample to C5 as stated: on a game whose target cell is already
OPENED, the claim's hypotheses (RUNNING, in range, zero adjacent bombs, no
bomb in the set) hold and the cell is in the reach set, yet `openCell`
transitions nothing — the claimed biconditional between being transitioned
to OPENED and lying in the region-plus-border set fails. -/
theorem flood_fill_needs_openable_cells :
    openedGame1.state = GameState.RUNNING ∧
      numberAdjacentBombs 1 openedGame1 (0, 0) = 0 ∧
      (openedGame1.grid (0, 0)).isBomb = false ∧
      Reach 1 openedGame1 (0, 0) (0, 0) ∧
      (openCell 1 openedGame1 0 0).map
          (fun g2 => decide ((g2.grid (0, 0)).state = CellState.OPENED ∧
            (openedGame1.grid (0, 0)).state ≠ CellState.OPENED))
        = some false :=
  ⟨rfl, by decide, rfl, Reach.base, by decide⟩
